import Mathlib

/-!
Shallow embedding of the grants-app server (src/server.js): a CRUD service
over a SQLite store with two tables (clients, grants).

Modelling notes, fixed once for the whole file:

* The store is a pair of lists kept in rowid order.  SQLite assigns each new
  row a rowid larger than every existing rowid, so inserts append at the end
  and deletions preserve relative order; `ORDER BY sort_order, rowid` is then
  a stable sort of the list on `sort_order`.
* `datetime('now')` values are abstract instants, modelled as `Nat` supplied
  by the caller (`now`); `crypto.randomBytes(8).toString('hex')` identifiers
  are opaque `String`s supplied by the caller (`newId`), with freshness a
  hypothesis where a theorem needs it.
* better-sqlite3 compiles SQLite with `SQLITE_DEFAULT_FOREIGN_KEYS=1`
  (see its docs/compilation.md), so foreign keys are enforced by default:
  the schema's `ON DELETE CASCADE` is active, and inserting a grant whose
  `client_id` names no client fails with a constraint error.
* A request field that is absent from the JSON body, or is JSON null, is
  modelled as `none`; the falsy-default `x || d` on a string becomes
  `orDefault`, on the integer `match_pct` it becomes `orDefaultInt`.
* A thrown exception in a handler (failed statement, property access on a
  malformed value) aborts the request; the statements already executed keep
  their effect (no transaction is open anywhere in the source).  Such an
  outcome is the `serverError` response, paired with the state reached.
-/

namespace GrantsApp

/-- A row of the `clients` table (server.js lines 13-24). -/
structure Client where
  id : String
  name : String
  contact : String
  sector : String
  email : String
  phone : String
  message : String
  presenter : String
  created_at : Nat
  updated_at : Nat
deriving Repr, DecidableEq

/-- A row of the `grants` table (server.js lines 26-40). -/
structure GrantRow where
  id : String
  client_id : String
  name : String
  org : String
  cat : String
  amount : String
  cover : String
  deadline : String
  status : String
  match_pct : Int
  notes : String
  sort_order : Int
deriving Repr, DecidableEq

/-- A grant as returned by the public single-client read: the rest spread
`({ notes, ...g }) => g` at line 74 keeps every field except `notes`. -/
structure PublicGrant where
  id : String
  client_id : String
  name : String
  org : String
  cat : String
  amount : String
  cover : String
  deadline : String
  status : String
  match_pct : Int
  sort_order : Int
deriving Repr, DecidableEq

/-- The persistent store: both tables, each list in rowid order. -/
structure Store where
  clients : List Client
  grants : List GrantRow
deriving Repr, DecidableEq

/-- Client fields of a request body (lines 81, 91); `none` = absent/null. -/
structure ClientReq where
  name : Option String
  contact : Option String
  sector : Option String
  email : Option String
  phone : Option String
  message : Option String
  presenter : Option String
deriving Repr, DecidableEq

/-- Grant fields of a request body (lines 110, 120); `none` = absent/null. -/
structure GrantReq where
  name : Option String
  org : Option String
  cat : Option String
  amount : Option String
  cover : Option String
  deadline : Option String
  status : Option String
  match_pct : Option Int
  notes : Option String
deriving Repr, DecidableEq

/-- The JSON responses the handlers produce.  `serverError` is an uncaught
exception (express answers 500); the others are the literal `res.json` calls. -/
inductive ApiResponse where
  | unauthorized
  | notFound
  | ok
  | createdClient (id name : String)
  | createdGrant (id : String)
  | clientList (l : List (Client × List GrantRow))
  | clientView (c : Client) (gs : List PublicGrant)
  | serverError
deriving Repr, DecidableEq

/-- JavaScript `v || d` on a string-valued field: absent/null and the empty
string are falsy and give the default. -/
def orDefault (v : Option String) (d : String) : String :=
  match v with
  | none => d
  | some s => if s = "" then d else s

/-- JavaScript `v || d` on the integer field `match_pct`: absent/null and 0
are falsy and give the default. -/
def orDefaultInt (v : Option Int) (d : Int) : Int :=
  match v with
  | none => d
  | some n => if n = 0 then d else n

/-- The fixed organization label defaulted into `presenter` (lines 21, 85, 95). -/
def orgLabel : String := "מענקים בקליק"

/-- The default admin credential (line 48). -/
def defaultAdminPass : String := "grants2024"

/-- requireAdmin (lines 50-54): the x-admin-key header must equal the
configured admin password; an absent header is `none` and never matches. -/
def requireAdmin (adminPass : String) (auth : Option String) : Bool :=
  auth == some adminPass

/-- All grant rows of one client, in rowid order (the WHERE clause of the
queries at lines 63 and 72). -/
def grantsOf (s : Store) (cid : String) : List GrantRow :=
  s.grants.filter (fun g => g.client_id = cid)

/-- Insert one grant row into a list sorted on `sort_order`, before the first
row whose key is not smaller: with rows arriving in rowid order this realises
`ORDER BY sort_order, rowid`. -/
def insertG (g : GrantRow) : List GrantRow → List GrantRow
  | [] => [g]
  | h :: t => if h.sort_order < g.sort_order then h :: insertG g t else g :: h :: t

/-- Stable sort of grant rows on `sort_order` (rowid breaks ties because the
input list is in rowid order). -/
def sortGrants : List GrantRow → List GrantRow
  | [] => []
  | g :: t => insertG g (sortGrants t)

/-- Insert one client into a list sorted on `created_at` descending. -/
def insertC (c : Client) : List Client → List Client
  | [] => [c]
  | h :: t => if c.created_at < h.created_at then h :: insertC c t else c :: h :: t

/-- `ORDER BY created_at DESC` over the clients table (line 60). -/
def sortClientsDesc : List Client → List Client
  | [] => []
  | c :: t => insertC c (sortClientsDesc t)

/-- Drop the `notes` field, keep everything else (line 74). -/
def toPublic (g : GrantRow) : PublicGrant :=
  { id := g.id, client_id := g.client_id, name := g.name, org := g.org,
    cat := g.cat, amount := g.amount, cover := g.cover, deadline := g.deadline,
    status := g.status, match_pct := g.match_pct, sort_order := g.sort_order }

/-- GET /api/clients (lines 59-66): admin-gated; all clients newest first,
each with its grants ordered by sort_order then rowid. -/
def getClients (adminPass : String) (auth : Option String) (s : Store) :
    Store × ApiResponse :=
  if requireAdmin adminPass auth then
    (s, .clientList ((sortClientsDesc s.clients).map
      (fun c => (c, sortGrants (grantsOf s c.id)))))
  else (s, .unauthorized)

/-- GET /api/client/:id (lines 69-76): public; 404 when the id is unknown,
otherwise the client with its ordered grants, notes stripped. -/
def getClientPublic (s : Store) (cid : String) : Store × ApiResponse :=
  match s.clients.find? (fun c => c.id = cid) with
  | none => (s, .notFound)
  | some c => (s, .clientView c ((sortGrants (grantsOf s c.id)).map toPublic))

/-- Build the client row the INSERT at lines 82-85 writes: every optional
text field falsy-defaulted to the empty string, presenter falsy-defaulted to
the organization label, both timestamps the insertion instant. -/
def mkClientRow (newId : String) (now : Nat) (nm : String) (req : ClientReq) :
    Client :=
  { id := newId, name := nm,
    contact := orDefault req.contact "",
    sector := orDefault req.sector "",
    email := orDefault req.email "",
    phone := orDefault req.phone "",
    message := orDefault req.message "",
    presenter := orDefault req.presenter orgLabel,
    created_at := now, updated_at := now }

/-- POST /api/clients (lines 79-87): admin-gated insert.  An absent/null name
makes the INSERT throw (NOT NULL column / unbindable value) with no row
written; a colliding primary key likewise throws. -/
def postClient (adminPass : String) (auth : Option String) (newId : String)
    (now : Nat) (req : ClientReq) (s : Store) : Store × ApiResponse :=
  if requireAdmin adminPass auth then
    match req.name with
    | none => (s, .serverError)
    | some nm =>
      if s.clients.any (fun c => c.id = newId) then (s, .serverError)
      else
        ({ s with clients := s.clients ++ [mkClientRow newId now nm req] },
          .createdClient newId nm)
  else (s, .unauthorized)

/-- PUT /api/clients/:id (lines 90-97): admin-gated full overwrite of the
mutable client fields plus a refreshed updated_at; matching zero rows is
fine and still answers ok. -/
def putClient (adminPass : String) (auth : Option String) (cid : String)
    (now : Nat) (req : ClientReq) (s : Store) : Store × ApiResponse :=
  if requireAdmin adminPass auth then
    match req.name with
    | none => (s, .serverError)
    | some nm =>
      ({ s with clients := s.clients.map (fun c =>
          if c.id = cid then
            { c with
              name := nm,
              contact := orDefault req.contact "",
              sector := orDefault req.sector "",
              email := orDefault req.email "",
              phone := orDefault req.phone "",
              message := orDefault req.message "",
              presenter := orDefault req.presenter orgLabel,
              updated_at := now }
          else c) }, .ok)
  else (s, .unauthorized)

/-- DELETE /api/clients/:id (lines 100-103): admin-gated; the enforced
`ON DELETE CASCADE` also removes every grant row of that client. -/
def deleteClient (adminPass : String) (auth : Option String) (cid : String)
    (s : Store) : Store × ApiResponse :=
  if requireAdmin adminPass auth then
    ({ clients := s.clients.filter (fun c => ¬ c.id = cid),
       grants := s.grants.filter (fun g => ¬ g.client_id = cid) }, .ok)
  else (s, .unauthorized)

/-- Build the grant row the INSERT statements write (lines 111-114, 138-144):
every text field falsy-defaulted to the empty string except status ("open"),
match_pct falsy-defaulted to 70; sort_order as passed (the column default 0
for the single insert, the list position for the bulk insert). -/
def mkGrantRow (gid cid : String) (req : GrantReq) (ord : Int) : GrantRow :=
  { id := gid, client_id := cid,
    name := orDefault req.name "",
    org := orDefault req.org "",
    cat := orDefault req.cat "",
    amount := orDefault req.amount "",
    cover := orDefault req.cover "",
    deadline := orDefault req.deadline "",
    status := orDefault req.status "open",
    match_pct := orDefaultInt req.match_pct 70,
    notes := orDefault req.notes "",
    sort_order := ord }

/-- POST /api/clients/:clientId/grants (lines 108-116): admin-gated insert
with sort_order left to its column default 0.  The enforced foreign key
rejects a clientId naming no client; a colliding primary key throws. -/
def postGrant (adminPass : String) (auth : Option String) (newId cid : String)
    (req : GrantReq) (s : Store) : Store × ApiResponse :=
  if requireAdmin adminPass auth then
    if s.clients.any (fun c => c.id = cid) then
      if s.grants.any (fun g => g.id = newId) then (s, .serverError)
      else ({ s with grants := s.grants ++ [mkGrantRow newId cid req 0] },
        .createdGrant newId)
    else (s, .serverError)
  else (s, .unauthorized)

/-- PUT /api/grants/:id (lines 119-126): admin-gated full overwrite of the
mutable grant fields; id, client_id and sort_order are not in the SET list;
matching zero rows is fine and still answers ok. -/
def putGrant (adminPass : String) (auth : Option String) (gid : String)
    (req : GrantReq) (s : Store) : Store × ApiResponse :=
  if requireAdmin adminPass auth then
    ({ s with grants := s.grants.map (fun g =>
        if g.id = gid then
          { g with
            name := orDefault req.name "",
            org := orDefault req.org "",
            cat := orDefault req.cat "",
            amount := orDefault req.amount "",
            cover := orDefault req.cover "",
            deadline := orDefault req.deadline "",
            status := orDefault req.status "open",
            match_pct := orDefaultInt req.match_pct 70,
            notes := orDefault req.notes "" }
        else g) }, .ok)
  else (s, .unauthorized)

/-- DELETE /api/grants/:id (lines 129-132): admin-gated; zero matches fine. -/
def deleteGrant (adminPass : String) (auth : Option String) (gid : String)
    (s : Store) : Store × ApiResponse :=
  if requireAdmin adminPass auth then
    ({ s with grants := s.grants.filter (fun g => ¬ g.id = gid) }, .ok)
  else (s, .unauthorized)

/-- The forEach loop of the bulk replace (lines 142-145).  Each submitted
element carries the identifier generated for it; `none` is a malformed
element (e.g. null) whose property access throws, aborting the loop with the
inserts so far kept.  A failing INSERT (foreign key, duplicate id) aborts the
same way.  `i` is the running 0-based position. -/
def runBulkInserts (cid : String) :
    List (String × Option GrantReq) → Nat → Store → Store × ApiResponse
  | [], _, s => (s, .ok)
  | (_, none) :: _, _, s => (s, .serverError)
  | (gid, some req) :: rest, i, s =>
    if s.clients.any (fun c => c.id = cid) then
      if s.grants.any (fun g => g.id = gid) then (s, .serverError)
      else runBulkInserts cid rest (i + 1)
        { s with grants := s.grants ++ [mkGrantRow gid cid req (Int.ofNat i)] }
    else (s, .serverError)

/-- PUT /api/clients/:clientId/grants (lines 135-147): admin-gated bulk
replace.  The DELETE runs first, unconditionally; then the inserts run one
by one with no surrounding transaction.  `entries = none` is a body without
a grants array: `grants.forEach` throws after the delete already ran. -/
def putBulkGrants (adminPass : String) (auth : Option String) (cid : String)
    (entries : Option (List (String × Option GrantReq))) (s : Store) :
    Store × ApiResponse :=
  if requireAdmin adminPass auth then
    let s1 : Store := { s with grants := s.grants.filter (fun g => ¬ g.client_id = cid) }
    match entries with
    | none => (s1, .serverError)
    | some l => runBulkInserts cid l 0 s1
  else (s, .unauthorized)

/-- The rows the bulk insert writes for well-formed entries, starting at
position `start`. -/
def bulkRows (cid : String) : List (String × GrantReq) → Nat → List GrantRow
  | [], _ => []
  | (gid, req) :: rest, start =>
    mkGrantRow gid cid req (Int.ofNat start) :: bulkRows cid rest (start + 1)

/-- Referential integrity: every grant row names an existing client. -/
def RefIntact (s : Store) : Prop :=
  ∀ g ∈ s.grants, ∃ c ∈ s.clients, c.id = g.client_id

/-- A grant request with every field absent. -/
def exReq0 : GrantReq := ⟨none, none, none, none, none, none, none, none, none⟩

/-- A grant request with a name, an org and internal notes. -/
def exReqB : GrantReq :=
  ⟨some "B", some "OrgB", none, none, none, none, none, none, some "internal"⟩

/-- Fixture client c1. -/
def exClient1 : Client := ⟨"c1", "Acme", "", "Tech", "", "", "", "Org", 5, 5⟩

/-- Fixture client c2. -/
def exClient2 : Client := ⟨"c2", "Beta", "", "", "", "", "", "Org", 3, 3⟩

/-- Fixture grant g1, owned by c1, sort_order 2, with internal notes. -/
def exGrant1 : GrantRow := ⟨"g1", "c1", "A", "", "", "", "", "", "open", 70, "note-a", 2⟩

/-- Fixture grant g2, owned by c2. -/
def exGrant2 : GrantRow := ⟨"g2", "c2", "B", "", "", "", "", "", "open", 70, "", 0⟩

/-- Fixture grant g3, owned by c1, sort_order 0, so it displays before g1. -/
def exGrant3 : GrantRow := ⟨"g3", "c1", "C", "", "", "", "", "", "won", 50, "", 0⟩

/-- Fixture store: two clients, three grants. -/
def exStore : Store := ⟨[exClient1, exClient2], [exGrant1, exGrant2, exGrant3]⟩

/-- Fixture client-creation request. -/
def exClientReq : ClientReq := ⟨some "New", none, some "Tech", none, none, none, none⟩

/-- Fixture store whose client c1 has no grants yet. -/
def exStoreNoC1Grants : Store := ⟨[exClient1, exClient2], [exGrant2]⟩

theorem requireAdmin_true {adminPass : String} {auth : Option String}
    (h : auth = some adminPass) : requireAdmin adminPass auth = true := by
  simp [requireAdmin, h]

theorem requireAdmin_false {adminPass : String} {auth : Option String}
    (h : ¬ auth = some adminPass) : requireAdmin adminPass auth = false := by
  simp [requireAdmin, h]

theorem insertG_perm (g : GrantRow) (l : List GrantRow) :
    (insertG g l).Perm (g :: l) := by
  induction l with
  | nil => simp [insertG]
  | cons h t ih =>
    by_cases hk : h.sort_order < g.sort_order
    · simpa [insertG, hk] using (ih.cons h).trans (List.Perm.swap g h t)
    · simp [insertG, hk]

theorem mem_insertG {x g : GrantRow} {l : List GrantRow} :
    x ∈ insertG g l ↔ x = g ∨ x ∈ l := by
  rw [(insertG_perm g l).mem_iff, List.mem_cons]

theorem insertG_pairwise {g : GrantRow} {l : List GrantRow}
    (hl : l.Pairwise (fun a b => a.sort_order ≤ b.sort_order)) :
    (insertG g l).Pairwise (fun a b => a.sort_order ≤ b.sort_order) := by
  induction l with
  | nil => simp [insertG]
  | cons h t ih =>
    rw [List.pairwise_cons] at hl
    by_cases hk : h.sort_order < g.sort_order
    · rw [insertG, if_pos hk, List.pairwise_cons]
      refine ⟨fun y hy => ?_, ih hl.2⟩
      rcases mem_insertG.mp hy with rfl | hy
      · exact le_of_lt hk
      · exact hl.1 y hy
    · rw [insertG, if_neg hk, List.pairwise_cons]
      refine ⟨fun y hy => ?_, List.pairwise_cons.mpr hl⟩
      rcases List.mem_cons.mp hy with rfl | hy
      · exact le_of_not_lt hk
      · exact le_trans (le_of_not_lt hk) (hl.1 y hy)

theorem sortGrants_perm (l : List GrantRow) : (sortGrants l).Perm l := by
  induction l with
  | nil => simp [sortGrants]
  | cons g t ih => exact (insertG_perm g (sortGrants t)).trans (ih.cons g)

theorem sortGrants_pairwise (l : List GrantRow) :
    (sortGrants l).Pairwise (fun a b => a.sort_order ≤ b.sort_order) := by
  induction l with
  | nil => simp [sortGrants]
  | cons g t ih => exact insertG_pairwise ih

theorem insertG_filter (g : GrantRow) (l : List GrantRow) (k : Int) :
    (insertG g l).filter (fun x => x.sort_order = k)
      = if g.sort_order = k then g :: l.filter (fun x => x.sort_order = k)
        else l.filter (fun x => x.sort_order = k) := by
  induction l with
  | nil => by_cases hk : g.sort_order = k <;> simp [insertG, List.filter, hk]
  | cons h t ih =>
    by_cases hlt : h.sort_order < g.sort_order
    · rw [insertG, if_pos hlt]
      by_cases hgk : g.sort_order = k
      · have hhk : ¬ h.sort_order = k := by omega
        simp [List.filter, hhk, ih, hgk]
      · by_cases hhk : h.sort_order = k <;> simp [List.filter, hhk, ih, hgk]
    · rw [insertG, if_neg hlt]
      by_cases hgk : g.sort_order = k <;> simp [List.filter, hgk]

theorem sortGrants_filter (l : List GrantRow) (k : Int) :
    (sortGrants l).filter (fun x => x.sort_order = k)
      = l.filter (fun x => x.sort_order = k) := by
  induction l with
  | nil => simp [sortGrants]
  | cons g t ih =>
    rw [sortGrants, insertG_filter]
    by_cases hgk : g.sort_order = k <;> simp [List.filter, hgk, ih]

theorem sortGrants_eq_self {l : List GrantRow}
    (hl : l.Pairwise (fun a b => a.sort_order ≤ b.sort_order)) :
    sortGrants l = l := by
  induction l with
  | nil => simp [sortGrants]
  | cons g t ih =>
    rw [List.pairwise_cons] at hl
    rw [sortGrants, ih hl.2]
    cases t with
    | nil => simp [insertG]
    | cons h t2 =>
      have : ¬ h.sort_order < g.sort_order :=
        not_lt_of_le (hl.1 h (List.mem_cons_self h t2))
      rw [insertG, if_neg this]

theorem mem_insertC {x c : Client} {l : List Client} :
    x ∈ insertC c l ↔ x = c ∨ x ∈ l := by
  induction l with
  | nil => simp [insertC]
  | cons h t ih =>
    by_cases hk : c.created_at < h.created_at
    · rw [insertC, if_pos hk]
      simp only [List.mem_cons, ih]
      tauto
    · rw [insertC, if_neg hk]
      simp only [List.mem_cons]

theorem mem_sortClientsDesc {x : Client} {l : List Client} :
    x ∈ sortClientsDesc l ↔ x ∈ l := by
  induction l with
  | nil => simp [sortClientsDesc]
  | cons c t ih =>
    rw [sortClientsDesc, mem_insertC, ih, List.mem_cons]

theorem map_ite_id {α : Type} (p : α → Prop) [DecidablePred p] (f : α → α)
    (l : List α) (h : ∀ a ∈ l, ¬ p a) :
    l.map (fun a => if p a then f a else a) = l := by
  induction l with
  | nil => rfl
  | cons a t ih =>
    have ha : ¬ p a := h a (List.mem_cons_self a t)
    simp only [List.map_cons, if_neg ha, List.cons.injEq, true_and]
    exact ih (fun x hx => h x (List.mem_cons_of_mem a hx))

theorem filter_true_id {α : Type} (p : α → Prop) [DecidablePred p]
    (l : List α) (h : ∀ a ∈ l, p a) : l.filter (fun a => p a) = l := by
  induction l with
  | nil => rfl
  | cons a t ih =>
    have ha : p a := h a (List.mem_cons_self a t)
    simp only [List.filter, decide_eq_true ha]
    exact congrArg (a :: ·) (ih (fun x hx => h x (List.mem_cons_of_mem a hx)))

theorem filter_false_nil {α : Type} (p : α → Prop) [DecidablePred p]
    (l : List α) (h : ∀ a ∈ l, ¬ p a) : l.filter (fun a => p a) = [] := by
  induction l with
  | nil => rfl
  | cons a t ih =>
    have ha : ¬ p a := h a (List.mem_cons_self a t)
    simp only [List.filter, decide_eq_false ha]
    exact ih (fun x hx => h x (List.mem_cons_of_mem a hx))

theorem find?_append_last {α : Type} (p : α → Bool) (l : List α) (a : α)
    (h : ∀ x ∈ l, ¬ p x) (ha : p a) : (l ++ [a]).find? p = some a := by
  induction l with
  | nil => simp [List.find?, ha]
  | cons x t ih =>
    have hx : ¬ p x := h x (List.mem_cons_self x t)
    simp only [List.cons_append, List.find?]
    rw [Bool.eq_false_iff.mpr hx]
    exact ih (fun y hy => h y (List.mem_cons_of_mem x hy))

theorem bulkRows_length (cid : String) (l : List (String × GrantReq)) (i : Nat) :
    (bulkRows cid l i).length = l.length := by
  induction l generalizing i with
  | nil => rfl
  | cons p rest ih => simp [bulkRows, ih]

theorem bulkRows_client_id (cid : String) (l : List (String × GrantReq)) (i : Nat) :
    ∀ r ∈ bulkRows cid l i, r.client_id = cid := by
  induction l generalizing i with
  | nil => intro r hr; simp [bulkRows] at hr
  | cons p rest ih =>
    intro r hr
    rcases List.mem_cons.mp hr with rfl | hr
    · rfl
    · exact ih (i + 1) r hr

theorem bulkRows_key_ge (cid : String) (l : List (String × GrantReq)) (i : Nat) :
    ∀ r ∈ bulkRows cid l i, Int.ofNat i ≤ r.sort_order := by
  induction l generalizing i with
  | nil => intro r hr; simp [bulkRows] at hr
  | cons p rest ih =>
    intro r hr
    rcases List.mem_cons.mp hr with rfl | hr
    · exact le_refl _
    · calc Int.ofNat i ≤ Int.ofNat (i + 1) := by simp
        _ ≤ r.sort_order := ih (i + 1) r hr

theorem bulkRows_pairwise (cid : String) (l : List (String × GrantReq)) (i : Nat) :
    (bulkRows cid l i).Pairwise (fun a b => a.sort_order ≤ b.sort_order) := by
  induction l generalizing i with
  | nil => simp [bulkRows]
  | cons p rest ih =>
    rw [bulkRows, List.pairwise_cons]
    refine ⟨fun y hy => ?_, ih (i + 1)⟩
    calc (mkGrantRow p.1 cid p.2 (Int.ofNat i)).sort_order = Int.ofNat i := rfl
      _ ≤ Int.ofNat (i + 1) := by simp
      _ ≤ y.sort_order := bulkRows_key_ge cid rest (i + 1) y hy

theorem bulkRows_getElem (cid : String) (l : List (String × GrantReq)) (i j : Nat)
    (hj : j < (bulkRows cid l i).length) (hl : j < l.length) :
    (bulkRows cid l i)[j] = mkGrantRow l[j].1 cid l[j].2 (Int.ofNat (i + j)) := by
  induction l generalizing i j with
  | nil => simp at hl
  | cons p rest ih =>
    cases j with
    | zero => simp [bulkRows]
    | succ j2 =>
      have hj2 : j2 < (bulkRows cid rest (i + 1)).length := by
        rw [bulkRows_length] at hj ⊢
        simpa using hj
      have hl2 : j2 < rest.length := by simpa using hl
      have heq : i + 1 + j2 = i + (j2 + 1) := by omega
      have := ih (i + 1) j2 hj2 hl2
      rw [heq] at this
      simp only [bulkRows, List.getElem_cons_succ, this]

theorem bulkRows_ids (cid : String) (l : List (String × GrantReq)) (i : Nat) :
    ∀ r ∈ bulkRows cid l i, r.id ∈ l.map Prod.fst := by
  induction l generalizing i with
  | nil => intro r hr; simp [bulkRows] at hr
  | cons p rest ih =>
    intro r hr
    rcases List.mem_cons.mp hr with rfl | hr
    · simp [mkGrantRow]
    · simp only [List.map_cons, List.mem_cons]
      exact Or.inr (ih (i + 1) r hr)

theorem runBulkInserts_ok (cid : String) (l : List (String × GrantReq))
    (i : Nat) (s : Store)
    (hc : ∃ c ∈ s.clients, c.id = cid)
    (hfresh : ∀ p ∈ l, ∀ g ∈ s.grants, g.id ≠ p.1)
    (hnd : (l.map Prod.fst).Nodup) :
    runBulkInserts cid (l.map (fun p => (p.1, some p.2))) i s
      = ({ s with grants := s.grants ++ bulkRows cid l i }, .ok) := by
  induction l generalizing i s with
  | nil =>
    simp only [List.map_nil, runBulkInserts, bulkRows, List.append_nil]
  | cons p rest ih =>
    obtain ⟨c, hcmem, hcid⟩ := hc
    have hany : s.clients.any (fun c => c.id = cid) = true := by
      rw [List.any_eq_true]
      exact ⟨c, hcmem, by simp [hcid]⟩
    have hnone : s.grants.any (fun g => g.id = p.1) = false := by
      rw [Bool.eq_false_iff, Ne, List.any_eq_true]
      rintro ⟨g, hg, hgp⟩
      exact hfresh p (List.mem_cons_self p rest) g hg (by simpa using hgp)
    simp only [List.map_cons, runBulkInserts, hany, hnone, if_true, if_false,
      Bool.false_eq_true, ite_false, ite_true]
    rw [List.map_cons, List.nodup_cons] at hnd
    have step := ih (i + 1)
      { s with grants := s.grants ++ [mkGrantRow p.1 cid p.2 (Int.ofNat i)] }
      ⟨c, hcmem, hcid⟩
      (by
        intro q hq g hg
        rcases List.mem_append.mp hg with hg | hg
        · exact hfresh q (List.mem_cons_of_mem p hq) g hg
        · rcases List.mem_singleton.mp hg with rfl
          show ¬ (mkGrantRow p.1 cid p.2 (Int.ofNat i)).id = q.1
          intro hbad
          exact hnd.1 (by
            have : p.1 = q.1 := hbad
            rw [this]
            exact List.mem_map_of_mem Prod.fst hq))
      hnd.2
    rw [step]
    simp [bulkRows, List.append_assoc]

theorem runBulkInserts_clients (cid : String)
    (l : List (String × Option GrantReq)) (i : Nat) (s : Store) :
    (runBulkInserts cid l i s).1.clients = s.clients := by
  induction l generalizing i s with
  | nil => rfl
  | cons p rest ih =>
    obtain ⟨gid, req⟩ := p
    cases req with
    | none => rfl
    | some r =>
      rw [runBulkInserts]
      by_cases h1 : s.clients.any (fun c => c.id = cid) = true
      · rw [if_pos h1]
        by_cases h2 : s.grants.any (fun g => g.id = gid) = true
        · rw [if_pos h2]
        · rw [if_neg h2, ih]
      · rw [if_neg h1]

theorem runBulkInserts_frame (cid : String)
    (l : List (String × Option GrantReq)) (i : Nat) (s : Store) :
    (runBulkInserts cid l i s).1.grants.filter (fun g => ¬ g.client_id = cid)
      = s.grants.filter (fun g => ¬ g.client_id = cid) := by
  induction l generalizing i s with
  | nil => rfl
  | cons p rest ih =>
    obtain ⟨gid, req⟩ := p
    cases req with
    | none => rfl
    | some r =>
      rw [runBulkInserts]
      by_cases h1 : s.clients.any (fun c => c.id = cid) = true
      · rw [if_pos h1]
        by_cases h2 : s.grants.any (fun g => g.id = gid) = true
        · rw [if_pos h2]
        · rw [if_neg h2, ih]
          simp [List.filter_append, mkGrantRow, List.filter]
      · rw [if_neg h1]

theorem runBulkInserts_refIntact (cid : String)
    (l : List (String × Option GrantReq)) (i : Nat) (s : Store)
    (hs : RefIntact s) : RefIntact (runBulkInserts cid l i s).1 := by
  induction l generalizing i s with
  | nil => exact hs
  | cons p rest ih =>
    obtain ⟨gid, req⟩ := p
    cases req with
    | none => exact hs
    | some r =>
      rw [runBulkInserts]
      by_cases h1 : s.clients.any (fun c => c.id = cid) = true
      · rw [if_pos h1]
        by_cases h2 : s.grants.any (fun g => g.id = gid) = true
        · rw [if_pos h2]; exact hs
        · rw [if_neg h2]
          refine ih (i + 1) _ ?_
          intro g hg
          rcases List.mem_append.mp hg with hg | hg
          · exact hs g hg
          · rcases List.mem_singleton.mp hg with rfl
            obtain ⟨c, hcmem, hcid⟩ := List.any_eq_true.mp h1
            exact ⟨c, hcmem, by simpa [mkGrantRow] using hcid⟩
      · rw [if_neg h1]; exact hs

theorem getClientPublic_found {s : Store} {cid : String} {c : Client}
    (h : s.clients.find? (fun x => x.id = cid) = some c) :
    getClientPublic s cid
      = (s, .clientView c ((sortGrants (grantsOf s c.id)).map toPublic)) := by
  rw [getClientPublic.eq_def, h]

theorem postClient_ok (pass : String) (auth : Option String) (newId : String)
    (now : Nat) (req : ClientReq) (s : Store) (nm : String)
    (hauth : auth = some pass) (hname : req.name = some nm)
    (hfresh : ∀ c ∈ s.clients, ¬ c.id = newId) :
    postClient pass auth newId now req s
      = ({ s with clients := s.clients ++ [mkClientRow newId now nm req] },
          .createdClient newId nm) := by
  have hno : s.clients.any (fun c => c.id = newId) = false := by
    rw [Bool.eq_false_iff, Ne, List.any_eq_true]
    rintro ⟨c, hc, hcid⟩
    exact hfresh c hc (by simpa using hcid)
  rw [postClient, if_pos (requireAdmin_true hauth), hname]
  simp [hno]

theorem postGrant_ok (pass : String) (auth : Option String) (newId cid : String)
    (req : GrantReq) (s : Store)
    (hauth : auth = some pass)
    (hc : ∃ c ∈ s.clients, c.id = cid)
    (hfresh : ∀ g ∈ s.grants, ¬ g.id = newId) :
    postGrant pass auth newId cid req s
      = ({ s with grants := s.grants ++ [mkGrantRow newId cid req 0] },
          .createdGrant newId) := by
  obtain ⟨c, hcmem, hcid⟩ := hc
  have hany : s.clients.any (fun c => c.id = cid) = true := by
    rw [List.any_eq_true]
    exact ⟨c, hcmem, by simp [hcid]⟩
  have hno : s.grants.any (fun g => g.id = newId) = false := by
    rw [Bool.eq_false_iff, Ne, List.any_eq_true]
    rintro ⟨g, hg, hgid⟩
    exact hfresh g hg (by simpa using hgid)
  rw [postGrant, if_pos (requireAdmin_true hauth)]
  simp [hany, hno]

/-- C3: every protected operation (list clients, create/update/delete client,
create/update/delete grant, bulk replace) answers 401 Unauthorized and leaves
the store untouched when the admin-credential header is absent or differs
from the configured secret. -/
theorem admin_gate_rejects_and_preserves
    (pass : String) (auth : Option String) (s : Store)
    (cid gid newId : String) (now : Nat) (creq : ClientReq) (greq : GrantReq)
    (entries : Option (List (String × Option GrantReq)))
    (h : ¬ auth = some pass) :
    getClients pass auth s = (s, .unauthorized)
    ∧ postClient pass auth newId now creq s = (s, .unauthorized)
    ∧ putClient pass auth cid now creq s = (s, .unauthorized)
    ∧ deleteClient pass auth cid s = (s, .unauthorized)
    ∧ postGrant pass auth newId cid greq s = (s, .unauthorized)
    ∧ putGrant pass auth gid greq s = (s, .unauthorized)
    ∧ deleteGrant pass auth gid s = (s, .unauthorized)
    ∧ putBulkGrants pass auth cid entries s = (s, .unauthorized) := by
  have hf := requireAdmin_false h
  refine ⟨?_, ?_, ?_, ?_, ?_, ?_, ?_, ?_⟩ <;>
    simp [getClients, postClient, putClient, deleteClient, postGrant,
      putGrant, deleteGrant, putBulkGrants, hf]

/-- Witness for C3 at a concrete store with a missing header. -/
theorem admin_gate_rejects_and_preserves_witness :
    putBulkGrants defaultAdminPass none "c1" none exStore
      = (exStore, .unauthorized) :=
  (admin_gate_rejects_and_preserves defaultAdminPass none exStore "c1" "g1"
    "n1" 7 exClientReq exReq0 none (by simp)).2.2.2.2.2.2.2

/-- C8: an authorized update of a nonexistent client id or grant id answers
ok and changes nothing, and an authorized delete of a nonexistent client id
or grant id answers ok and changes nothing. -/
theorem update_delete_nonexistent_noop
    (pass : String) (auth : Option String) (s : Store) (cid gid : String)
    (now : Nat) (creq : ClientReq) (greq : GrantReq) (nm : String)
    (hauth : auth = some pass)
    (hname : creq.name = some nm)
    (hc : ∀ c ∈ s.clients, ¬ c.id = cid)
    (hgc : ∀ g ∈ s.grants, ¬ g.client_id = cid)
    (hg : ∀ g ∈ s.grants, ¬ g.id = gid) :
    putClient pass auth cid now creq s = (s, .ok)
    ∧ putGrant pass auth gid greq s = (s, .ok)
    ∧ deleteClient pass auth cid s = (s, .ok)
    ∧ deleteGrant pass auth gid s = (s, .ok) := by
  have ht := requireAdmin_true hauth
  refine ⟨?_, ?_, ?_, ?_⟩
  · rw [putClient, if_pos ht, hname]
    dsimp only
    rw [map_ite_id (fun c => c.id = cid) _ s.clients hc]
  · rw [putGrant, if_pos ht]
    rw [map_ite_id (fun g => g.id = gid) _ s.grants hg]
  · rw [deleteClient, if_pos ht]
    rw [filter_true_id (fun c => ¬ c.id = cid) s.clients hc,
      filter_true_id (fun g => ¬ g.client_id = cid) s.grants hgc]
  · rw [deleteGrant, if_pos ht]
    rw [filter_true_id (fun g => ¬ g.id = gid) s.grants hg]

/-- Witness for C8 at a concrete store and ids that are not present. -/
theorem update_delete_nonexistent_noop_witness :
    putClient defaultAdminPass (some defaultAdminPass) "zz" 9 exClientReq exStore
      = (exStore, .ok)
    ∧ putGrant defaultAdminPass (some defaultAdminPass) "zg" exReqB exStore
      = (exStore, .ok)
    ∧ deleteClient defaultAdminPass (some defaultAdminPass) "zz" exStore
      = (exStore, .ok)
    ∧ deleteGrant defaultAdminPass (some defaultAdminPass) "zg" exStore
      = (exStore, .ok) :=
  update_delete_nonexistent_noop defaultAdminPass (some defaultAdminPass)
    exStore "zz" "zg" 9 exClientReq exReqB "New" rfl rfl
    (by decide) (by decide) (by decide)

theorem filter_not_cid_idem (cid : String) (l : List GrantRow) :
    (l.filter (fun g => ¬ g.client_id = cid)).filter (fun g => ¬ g.client_id = cid)
      = l.filter (fun g => ¬ g.client_id = cid) := by
  apply filter_true_id
  intro a ha
  simpa using List.of_mem_filter ha

/-- C9: an authorized individual grant update answers ok, touches no client
row, and rewrites each matching grant's mutable fields with the submitted
values under the falsy-default policy while keeping its id, client_id and
sort_order; every non-matching grant row is untouched. -/
theorem grant_update_overwrites_keeping_identity
    (pass : String) (auth : Option String) (gid : String) (req : GrantReq)
    (s : Store) (hauth : auth = some pass) :
    (putGrant pass auth gid req s).2 = .ok
    ∧ (putGrant pass auth gid req s).1.clients = s.clients
    ∧ (putGrant pass auth gid req s).1.grants.length = s.grants.length
    ∧ ∀ j, (hj : j < s.grants.length) →
        (hj2 : j < (putGrant pass auth gid req s).1.grants.length) →
        ((putGrant pass auth gid req s).1.grants[j].id = s.grants[j].id
          ∧ (putGrant pass auth gid req s).1.grants[j].client_id
              = s.grants[j].client_id
          ∧ (putGrant pass auth gid req s).1.grants[j].sort_order
              = s.grants[j].sort_order)
        ∧ (s.grants[j].id = gid →
            (putGrant pass auth gid req s).1.grants[j]
              = { s.grants[j] with
                  name := orDefault req.name "",
                  org := orDefault req.org "",
                  cat := orDefault req.cat "",
                  amount := orDefault req.amount "",
                  cover := orDefault req.cover "",
                  deadline := orDefault req.deadline "",
                  status := orDefault req.status "open",
                  match_pct := orDefaultInt req.match_pct 70,
                  notes := orDefault req.notes "" })
        ∧ (¬ s.grants[j].id = gid →
            (putGrant pass auth gid req s).1.grants[j] = s.grants[j]) := by
  have ht := requireAdmin_true hauth
  refine ⟨by simp [putGrant, ht], by simp [putGrant, ht],
    by simp [putGrant, ht], ?_⟩
  intro j hj hj2
  have hmap : (putGrant pass auth gid req s).1.grants[j]
      = (fun g => if g.id = gid then
          { g with
            name := orDefault req.name "",
            org := orDefault req.org "",
            cat := orDefault req.cat "",
            amount := orDefault req.amount "",
            cover := orDefault req.cover "",
            deadline := orDefault req.deadline "",
            status := orDefault req.status "open",
            match_pct := orDefaultInt req.match_pct 70,
            notes := orDefault req.notes "" }
          else g) s.grants[j] := by
    simp [putGrant, ht]
  by_cases hid : s.grants[j].id = gid
  · rw [hmap]
    dsimp only
    rw [if_pos hid]
    exact ⟨⟨rfl, rfl, rfl⟩, fun _ => rfl, fun hn => absurd hid hn⟩
  · rw [hmap]
    dsimp only
    rw [if_neg hid]
    exact ⟨⟨rfl, rfl, rfl⟩, fun hp => absurd hp hid, fun _ => rfl⟩

/-- Witness for C9 at a concrete store and grant id. -/
theorem grant_update_overwrites_keeping_identity_witness :
    (putGrant defaultAdminPass (some defaultAdminPass) "g1" exReqB exStore).2
      = .ok :=
  (grant_update_overwrites_keeping_identity defaultAdminPass
    (some defaultAdminPass) "g1" exReqB exStore rfl).1

/-- C10: the bulk replace touches nothing outside the addressed client's
grant list: the clients table (including the addressed client's own record
and timestamps) is returned unchanged and so is every grant row of every
other client, on every path including a mid-sequence failure; replacing
with the empty list leaves the client with no grants and everything else
untouched. -/
theorem bulk_replace_frame
    (pass : String) (auth : Option String) (cid : String)
    (entries : Option (List (String × Option GrantReq))) (s : Store)
    (hauth : auth = some pass) :
    (putBulkGrants pass auth cid entries s).1.clients = s.clients
    ∧ (putBulkGrants pass auth cid entries s).1.grants.filter
        (fun g => ¬ g.client_id = cid)
        = s.grants.filter (fun g => ¬ g.client_id = cid)
    ∧ putBulkGrants pass auth cid (some []) s
        = ({ s with grants := s.grants.filter (fun g => ¬ g.client_id = cid) },
            .ok)
    ∧ grantsOf (putBulkGrants pass auth cid (some []) s).1 cid = [] := by
  have ht := requireAdmin_true hauth
  refine ⟨?_, ?_, ?_, ?_⟩
  · rw [putBulkGrants, if_pos ht]
    cases entries with
    | none => rfl
    | some l => exact runBulkInserts_clients cid l 0 _
  · rw [putBulkGrants, if_pos ht]
    cases entries with
    | none => exact filter_not_cid_idem cid s.grants
    | some l =>
      rw [runBulkInserts_frame]
      exact filter_not_cid_idem cid s.grants
  · rw [putBulkGrants, if_pos ht]
    rfl
  · rw [putBulkGrants, if_pos ht]
    apply filter_false_nil
    intro a ha
    simpa using List.of_mem_filter ha

/-- Witness for C10: an authorized empty-list bulk replace at a concrete
store, leaving the client with no grants and everything else untouched. -/
theorem bulk_replace_frame_witness :
    putBulkGrants defaultAdminPass (some defaultAdminPass) "c1" (some []) exStore
      = ({ exStore with
            grants := exStore.grants.filter (fun g => ¬ g.client_id = "c1") },
          .ok) :=
  (bulk_replace_frame defaultAdminPass (some defaultAdminPass) "c1" (some [])
    exStore rfl).2.2.1

/-- C4: the public single-client read answers 404 with an error body for an
unknown id; for a known id it answers the stored client together with its
ordered grants, where each returned grant keeps every stored field except
the internal notes, which no returned grant carries (PublicGrant has no
notes field). -/
theorem public_read_strips_notes (s : Store) (cid : String) :
    (s.clients.find? (fun c => c.id = cid) = none →
      getClientPublic s cid = (s, .notFound))
    ∧ (∀ c, s.clients.find? (fun c => c.id = cid) = some c →
        c.id = cid
        ∧ getClientPublic s cid
            = (s, .clientView c ((sortGrants (grantsOf s c.id)).map toPublic))
        ∧ (sortGrants (grantsOf s c.id)).Perm (grantsOf s c.id))
    ∧ ∀ g : GrantRow,
        (toPublic g).id = g.id ∧ (toPublic g).client_id = g.client_id
        ∧ (toPublic g).name = g.name ∧ (toPublic g).org = g.org
        ∧ (toPublic g).cat = g.cat ∧ (toPublic g).amount = g.amount
        ∧ (toPublic g).cover = g.cover ∧ (toPublic g).deadline = g.deadline
        ∧ (toPublic g).status = g.status ∧ (toPublic g).match_pct = g.match_pct
        ∧ (toPublic g).sort_order = g.sort_order := by
  refine ⟨?_, ?_, ?_⟩
  · intro h; simp [getClientPublic, h]
  · intro c hc
    have hcid : c.id = cid := by simpa using List.find?_some hc
    exact ⟨hcid, by simp [getClientPublic, hc], sortGrants_perm _⟩
  · intro g
    exact ⟨rfl, rfl, rfl, rfl, rfl, rfl, rfl, rfl, rfl, rfl, rfl⟩

/-- Witness for C4 at a concrete store whose addressed client has two grants,
one carrying internal notes. -/
theorem public_read_strips_notes_witness :
    exClient1.id = "c1"
    ∧ getClientPublic exStore "c1"
        = (exStore,
            .clientView exClient1
              ((sortGrants (grantsOf exStore exClient1.id)).map toPublic))
    ∧ (sortGrants (grantsOf exStore exClient1.id)).Perm
        (grantsOf exStore exClient1.id) :=
  (public_read_strips_notes exStore "c1").2.1 exClient1 (by decide)

/-- C1 fails on the code: the bulk replace runs its DELETE and each INSERT
with no surrounding transaction (lines 135-147 open none), so when the
second submitted element is malformed and the loop throws, the request
fails after the client's old grants are already deleted and one new grant
is already inserted - a partially replaced list that remains in the store. -/
theorem bulk_replace_not_atomic :
    (putBulkGrants defaultAdminPass (some defaultAdminPass) "c1"
        (some [("n1", some exReqB), ("n2", none)]) exStore).2
      = .serverError
    ∧ grantsOf (putBulkGrants defaultAdminPass (some defaultAdminPass) "c1"
        (some [("n1", some exReqB), ("n2", none)]) exStore).1 "c1"
      = [mkGrantRow "n1" "c1" exReqB 0]
    ∧ ¬ grantsOf (putBulkGrants defaultAdminPass (some defaultAdminPass) "c1"
        (some [("n1", some exReqB), ("n2", none)]) exStore).1 "c1"
      = grantsOf exStore "c1" := by
  refine ⟨rfl, by decide, by decide⟩

/-- C6: every read of a client's grants (the admin list and the public
single-client read both sort with sortGrants) returns them ordered by
sort_order ascending with ties kept in insertion (rowid) order: the result
is a permutation of the stored rows, pairwise ordered, and for each
sort_order value the tied rows keep their stored relative order; two grants
created individually (no sort_order in that INSERT, column default 0) both
get sort_order 0 and are returned in insertion order. -/
theorem reads_ordered_by_sort_order
    (pass : String) (auth : Option String) (s : Store) (cid : String)
    (hauth : auth = some pass) :
    (sortGrants (grantsOf s cid)).Perm (grantsOf s cid)
    ∧ (sortGrants (grantsOf s cid)).Pairwise
        (fun a b => a.sort_order ≤ b.sort_order)
    ∧ (∀ k : Int,
        (sortGrants (grantsOf s cid)).filter (fun g => g.sort_order = k)
          = (grantsOf s cid).filter (fun g => g.sort_order = k))
    ∧ (∀ l, (getClients pass auth s).2 = .clientList l →
        ∀ pr ∈ l, pr.2 = sortGrants (grantsOf s pr.1.id))
    ∧ (∀ c, s.clients.find? (fun x => x.id = cid) = some c →
        getClientPublic s cid
          = (s, .clientView c ((sortGrants (grantsOf s c.id)).map toPublic)))
    ∧ (∀ g1 g2 : String, ∀ r1 r2 : GrantReq,
        (∃ c ∈ s.clients, c.id = cid) →
        grantsOf s cid = [] →
        (∀ g ∈ s.grants, ¬ g.id = g1) →
        (∀ g ∈ s.grants, ¬ g.id = g2) →
        ¬ g1 = g2 →
        (mkGrantRow g1 cid r1 0).sort_order = 0
        ∧ (mkGrantRow g2 cid r2 0).sort_order = 0
        ∧ sortGrants (grantsOf (postGrant pass auth g2 cid r2
              (postGrant pass auth g1 cid r1 s).1).1 cid)
            = [mkGrantRow g1 cid r1 0, mkGrantRow g2 cid r2 0]) := by
  have ht := requireAdmin_true hauth
  refine ⟨sortGrants_perm _, sortGrants_pairwise _, sortGrants_filter _, ?_, ?_, ?_⟩
  · intro l hl pr hpr
    rw [getClients, if_pos ht] at hl
    simp only [ApiResponse.clientList.injEq] at hl
    rw [← hl] at hpr
    obtain ⟨c, _, rfl⟩ := List.mem_map.mp hpr
    rfl
  · intro c hc
    simp [getClientPublic, hc]
  · intro g1 g2 r1 r2 hc h0 hf1 hf2 hne
    obtain ⟨c, hcm, hcid⟩ := hc
    have step1 := postGrant_ok pass auth g1 cid r1 s hauth ⟨c, hcm, hcid⟩ hf1
    have step2 := postGrant_ok pass auth g2 cid r2
        { s with grants := s.grants ++ [mkGrantRow g1 cid r1 0] } hauth
        ⟨c, hcm, hcid⟩
        (by
          intro g hg
          rcases List.mem_append.mp hg with hg | hg
          · exact hf2 g hg
          · rcases List.mem_singleton.mp hg with rfl
            simpa [mkGrantRow] using hne)
    rw [step1, step2]
    simp only [grantsOf] at h0
    refine ⟨rfl, rfl, ?_⟩
    have hrows : grantsOf
        { s with grants := (s.grants ++ [mkGrantRow g1 cid r1 0])
            ++ [mkGrantRow g2 cid r2 0] } cid
        = [mkGrantRow g1 cid r1 0, mkGrantRow g2 cid r2 0] := by
      simp [grantsOf, List.filter_append, h0, mkGrantRow, List.filter]
    rw [hrows]
    apply sortGrants_eq_self
    simp [List.pairwise_cons, mkGrantRow]

/-- Witness for C6: two grants created one after the other on a client with
no grants both carry sort_order 0 and come back in insertion order. -/
theorem reads_ordered_by_sort_order_witness :
    (mkGrantRow "ga" "c1" exReq0 0).sort_order = 0
    ∧ (mkGrantRow "gb" "c1" exReqB 0).sort_order = 0
    ∧ sortGrants (grantsOf (postGrant defaultAdminPass (some defaultAdminPass)
          "gb" "c1" exReqB
          (postGrant defaultAdminPass (some defaultAdminPass)
            "ga" "c1" exReq0 exStoreNoC1Grants).1).1 "c1")
        = [mkGrantRow "ga" "c1" exReq0 0, mkGrantRow "gb" "c1" exReqB 0] :=
  (reads_ordered_by_sort_order defaultAdminPass (some defaultAdminPass)
      exStoreNoC1Grants "c1" rfl).2.2.2.2.2 "ga" "gb" exReq0 exReqB
    (by decide) (by decide) (by decide) (by decide) (by decide)

/-- C7: an authorized client create stores absent/null optional text fields
as the empty string and a falsy presenter as the organization label, an
authorized grant create stores absent/null text fields as the empty string,
a falsy status as "open" and a falsy match_pct as 70, and the public fetch
afterwards returns exactly the stored values with those defaults filled in. -/
theorem create_applies_defaults_and_roundtrips
    (pass : String) (auth : Option String) (newId gid : String) (now : Nat)
    (creq : ClientReq) (greq : GrantReq) (s : Store) (nm : String)
    (hauth : auth = some pass)
    (hname : creq.name = some nm)
    (hfc : ∀ c ∈ s.clients, ¬ c.id = newId)
    (hog : ∀ g ∈ s.grants, ¬ g.client_id = newId)
    (hfg : ∀ g ∈ s.grants, ¬ g.id = gid) :
    postClient pass auth newId now creq s
      = ({ s with clients := s.clients ++ [mkClientRow newId now nm creq] },
          .createdClient newId nm)
    ∧ getClientPublic
        { s with clients := s.clients ++ [mkClientRow newId now nm creq] } newId
      = ({ s with clients := s.clients ++ [mkClientRow newId now nm creq] },
          .clientView (mkClientRow newId now nm creq) [])
    ∧ (mkClientRow newId now nm creq).name = nm
    ∧ (creq.contact = none → (mkClientRow newId now nm creq).contact = "")
    ∧ (creq.sector = none → (mkClientRow newId now nm creq).sector = "")
    ∧ (creq.email = none → (mkClientRow newId now nm creq).email = "")
    ∧ (creq.phone = none → (mkClientRow newId now nm creq).phone = "")
    ∧ (creq.message = none → (mkClientRow newId now nm creq).message = "")
    ∧ (creq.presenter = none →
        (mkClientRow newId now nm creq).presenter = orgLabel)
    ∧ (∀ v, creq.sector = some v → ¬ v = "" →
        (mkClientRow newId now nm creq).sector = v)
    ∧ postGrant pass auth gid newId greq
        { s with clients := s.clients ++ [mkClientRow newId now nm creq] }
      = (⟨s.clients ++ [mkClientRow newId now nm creq],
          s.grants ++ [mkGrantRow gid newId greq 0]⟩, .createdGrant gid)
    ∧ getClientPublic
        ⟨s.clients ++ [mkClientRow newId now nm creq],
          s.grants ++ [mkGrantRow gid newId greq 0]⟩ newId
      = (⟨s.clients ++ [mkClientRow newId now nm creq],
          s.grants ++ [mkGrantRow gid newId greq 0]⟩,
          .clientView (mkClientRow newId now nm creq)
            [toPublic (mkGrantRow gid newId greq 0)])
    ∧ (greq.name = none → (mkGrantRow gid newId greq 0).name = "")
    ∧ (greq.org = none → (mkGrantRow gid newId greq 0).org = "")
    ∧ (greq.cat = none → (mkGrantRow gid newId greq 0).cat = "")
    ∧ (greq.amount = none → (mkGrantRow gid newId greq 0).amount = "")
    ∧ (greq.cover = none → (mkGrantRow gid newId greq 0).cover = "")
    ∧ (greq.deadline = none → (mkGrantRow gid newId greq 0).deadline = "")
    ∧ (greq.notes = none → (mkGrantRow gid newId greq 0).notes = "")
    ∧ (greq.status = none → (mkGrantRow gid newId greq 0).status = "open")
    ∧ (greq.match_pct = none → (mkGrantRow gid newId greq 0).match_pct = 70)
    ∧ (∀ v, greq.name = some v → ¬ v = "" →
        (mkGrantRow gid newId greq 0).name = v) := by
  have hfind1 : (s.clients ++ [mkClientRow newId now nm creq]).find?
      (fun c => c.id = newId) = some (mkClientRow newId now nm creq) := by
    apply find?_append_last
    · intro x hx
      simpa using hfc x hx
    · simp [mkClientRow]
  refine ⟨postClient_ok pass auth newId now creq s nm hauth hname hfc,
    ?_, rfl, ?_, ?_, ?_, ?_, ?_, ?_, ?_, ?_, ?_, ?_, ?_, ?_, ?_, ?_, ?_, ?_,
    ?_, ?_, ?_⟩
  · have hempty : List.filter (fun g => decide (g.client_id = newId)) s.grants
        = [] := by
      apply filter_false_nil
      exact hog
    rw [getClientPublic_found hfind1]
    simp [grantsOf, mkClientRow, hempty, sortGrants]
  · intro h; simp [mkClientRow, orDefault, h]
  · intro h; simp [mkClientRow, orDefault, h]
  · intro h; simp [mkClientRow, orDefault, h]
  · intro h; simp [mkClientRow, orDefault, h]
  · intro h; simp [mkClientRow, orDefault, h]
  · intro h; simp [mkClientRow, orDefault, h]
  · intro v hv hne; simp [mkClientRow, orDefault, hv, hne]
  · exact postGrant_ok pass auth gid newId greq
      { s with clients := s.clients ++ [mkClientRow newId now nm creq] } hauth
      ⟨mkClientRow newId now nm creq,
        List.mem_append.mpr (Or.inr (List.mem_singleton.mpr rfl)), rfl⟩
      hfg
  · have hempty : List.filter (fun g => decide (g.client_id = newId)) s.grants
        = [] := by
      apply filter_false_nil
      exact hog
    rw [getClientPublic_found hfind1]
    simp [grantsOf, mkClientRow, List.filter_append, hempty, List.filter,
      mkGrantRow, sortGrants, insertG]
  · intro h; simp [mkGrantRow, orDefault, h]
  · intro h; simp [mkGrantRow, orDefault, h]
  · intro h; simp [mkGrantRow, orDefault, h]
  · intro h; simp [mkGrantRow, orDefault, h]
  · intro h; simp [mkGrantRow, orDefault, h]
  · intro h; simp [mkGrantRow, orDefault, h]
  · intro h; simp [mkGrantRow, orDefault, h]
  · intro h; simp [mkGrantRow, orDefault, h]
  · intro h; simp [mkGrantRow, orDefaultInt, h]
  · intro v hv hne; simp [mkGrantRow, orDefault, hv, hne]

/-- Witness for C7: an authorized create on a concrete store inserts the
defaults-applied client row. -/
theorem create_applies_defaults_and_roundtrips_witness :
    postClient defaultAdminPass (some defaultAdminPass) "nc" 9 exClientReq
        exStore
      = ({ exStore with
            clients := exStore.clients ++ [mkClientRow "nc" 9 "New" exClientReq] },
          .createdClient "nc" "New") :=
  (create_applies_defaults_and_roundtrips defaultAdminPass
    (some defaultAdminPass) "nc" "ng" 9 exClientReq exReq0 exStore "New"
    rfl rfl (by decide) (by decide) (by decide)).1

/-- C5: an authorized bulk replace of an existing client's grants with a
well-formed list, under fresh pairwise-distinct generated identifiers,
succeeds; the client's grant list afterwards - as every read returns it,
sorted - is exactly the submitted list in submitted order, each row carrying
its fresh identifier, the defaults-applied submitted fields and sort_order
equal to its 0-based position; no grant the client had before the call
remains. -/
theorem bulk_replace_replaces_in_order
    (pass : String) (auth : Option String) (cid : String) (s : Store)
    (ids : List String) (reqs : List GrantReq)
    (hauth : auth = some pass)
    (hc : ∃ c ∈ s.clients, c.id = cid)
    (hlen : ids.length = reqs.length)
    (hnd : ids.Nodup)
    (hfresh : ∀ i ∈ ids, ∀ g ∈ s.grants, ¬ g.id = i) :
    putBulkGrants pass auth cid
        (some ((ids.zip reqs).map (fun p => (p.1, some p.2)))) s
      = ({ s with grants := s.grants.filter (fun g => ¬ g.client_id = cid)
            ++ bulkRows cid (ids.zip reqs) 0 }, .ok)
    ∧ grantsOf
        { s with grants := s.grants.filter (fun g => ¬ g.client_id = cid)
            ++ bulkRows cid (ids.zip reqs) 0 } cid
        = bulkRows cid (ids.zip reqs) 0
    ∧ sortGrants (bulkRows cid (ids.zip reqs) 0) = bulkRows cid (ids.zip reqs) 0
    ∧ (bulkRows cid (ids.zip reqs) 0).length = reqs.length
    ∧ (∀ j, (h1 : j < ids.length) → (h2 : j < reqs.length) →
        (h3 : j < (bulkRows cid (ids.zip reqs) 0).length) →
        (bulkRows cid (ids.zip reqs) 0)[j]
          = mkGrantRow ids[j] cid reqs[j] (Int.ofNat j))
    ∧ (∀ g ∈ bulkRows cid (ids.zip reqs) 0, g.id ∈ ids)
    ∧ (∀ g ∈ s.grants, g.client_id = cid →
        ¬ g ∈ ({ s with
                 grants := s.grants.filter (fun g => ¬ g.client_id = cid)
                   ++ bulkRows cid (ids.zip reqs) 0 } : Store).grants)
    ∧ (∀ c, s.clients.find? (fun x => x.id = cid) = some c →
        getClientPublic
          { s with grants := s.grants.filter (fun g => ¬ g.client_id = cid)
              ++ bulkRows cid (ids.zip reqs) 0 } cid
          = ({ s with grants := s.grants.filter (fun g => ¬ g.client_id = cid)
                ++ bulkRows cid (ids.zip reqs) 0 },
              .clientView c ((bulkRows cid (ids.zip reqs) 0).map toPublic))) := by
  have ht := requireAdmin_true hauth
  have hmemids : ∀ g ∈ bulkRows cid (ids.zip reqs) 0, g.id ∈ ids := by
    intro g hg
    have := bulkRows_ids cid (ids.zip reqs) 0 g hg
    rwa [List.map_fst_zip ids reqs (le_of_eq hlen)] at this
  have h_go : grantsOf
      { s with grants := s.grants.filter (fun g => ¬ g.client_id = cid)
          ++ bulkRows cid (ids.zip reqs) 0 } cid
      = bulkRows cid (ids.zip reqs) 0 := by
    show (s.grants.filter (fun g => ¬ g.client_id = cid)
        ++ bulkRows cid (ids.zip reqs) 0).filter (fun g => g.client_id = cid)
      = bulkRows cid (ids.zip reqs) 0
    rw [List.filter_append]
    rw [filter_false_nil (fun g => g.client_id = cid)
      (s.grants.filter (fun g => ¬ g.client_id = cid))
      (fun a ha => by simpa using List.of_mem_filter ha)]
    rw [filter_true_id (fun g => g.client_id = cid)
      (bulkRows cid (ids.zip reqs) 0)
      (bulkRows_client_id cid (ids.zip reqs) 0)]
    rfl
  have h_sg : sortGrants (bulkRows cid (ids.zip reqs) 0)
      = bulkRows cid (ids.zip reqs) 0 :=
    sortGrants_eq_self (bulkRows_pairwise cid (ids.zip reqs) 0)
  refine ⟨?_, h_go, h_sg, ?_, ?_, hmemids, ?_, ?_⟩
  · rw [putBulkGrants, if_pos ht]
    dsimp only
    exact runBulkInserts_ok cid (ids.zip reqs) 0
      { s with grants := s.grants.filter (fun g => ¬ g.client_id = cid) }
      (by
        obtain ⟨c, hcm, hcid⟩ := hc
        exact ⟨c, hcm, hcid⟩)
      (by
        intro p hp g hg
        exact hfresh p.1 (List.of_mem_zip hp).1 g (List.mem_of_mem_filter hg))
      (by rwa [List.map_fst_zip ids reqs (le_of_eq hlen)])
  · rw [bulkRows_length, List.length_zip, hlen, Nat.min_self]
  · intro j h1 h2 h3
    have hz : j < (ids.zip reqs).length := by
      rw [List.length_zip]
      omega
    have := bulkRows_getElem cid (ids.zip reqs) 0 j h3 hz
    rw [List.getElem_zip] at this
    simpa using this
  · intro g hg hgc hmem
    rcases List.mem_append.mp hmem with hm | hm
    · have := List.of_mem_filter hm
      simp only [decide_eq_true_eq] at this
      exact this hgc
    · exact hfresh g.id (hmemids g hm) g hg rfl
  · intro c hcf
    have hcid : c.id = cid := by simpa using List.find?_some hcf
    have hcf2 : ({ s with
                   grants := s.grants.filter (fun g => ¬ g.client_id = cid)
                     ++ bulkRows cid (ids.zip reqs) 0 } : Store).clients.find?
        (fun x => x.id = cid) = some c := hcf
    rw [getClientPublic_found hcf2, hcid, h_go, h_sg]

/-- Witness for C5: an authorized bulk replace with two submitted grants on
the fixture store. -/
theorem bulk_replace_replaces_in_order_witness :
    putBulkGrants defaultAdminPass (some defaultAdminPass) "c1"
        (some ((["n1", "n2"].zip [exReqB, exReq0]).map
          (fun p => (p.1, some p.2)))) exStore
      = ({ exStore with
            grants := exStore.grants.filter (fun g => ¬ g.client_id = "c1")
              ++ bulkRows "c1" (["n1", "n2"].zip [exReqB, exReq0]) 0 }, .ok) :=
  (bulk_replace_replaces_in_order defaultAdminPass (some defaultAdminPass)
    "c1" exStore ["n1", "n2"] [exReqB, exReq0] rfl (by decide) rfl
    (by decide) (by decide)).1

theorem getClients_fst (pass : String) (auth : Option String) (s : Store) :
    (getClients pass auth s).1 = s := by
  unfold getClients
  split <;> rfl

theorem getClientPublic_fst (s : Store) (cid : String) :
    (getClientPublic s cid).1 = s := by
  unfold getClientPublic
  split <;> rfl

theorem deleteClient_ok (pass : String) (auth : Option String) (cid : String)
    (s : Store) (hauth : auth = some pass) :
    deleteClient pass auth cid s
      = (⟨s.clients.filter (fun c => ¬ c.id = cid),
          s.grants.filter (fun g => ¬ g.client_id = cid)⟩, .ok) := by
  rw [deleteClient, if_pos (requireAdmin_true hauth)]

theorem postClient_refIntact (pass : String) (auth : Option String)
    (newId : String) (now : Nat) (req : ClientReq) (s : Store)
    (hs : RefIntact s) : RefIntact (postClient pass auth newId now req s).1 := by
  unfold postClient
  split
  · split
    · exact hs
    · split
      · exact hs
      · intro g hg
        obtain ⟨c, hc, hcid⟩ := hs g hg
        exact ⟨c, List.mem_append.mpr (Or.inl hc), hcid⟩
  · exact hs

theorem putClient_refIntact (pass : String) (auth : Option String)
    (cid : String) (now : Nat) (req : ClientReq) (s : Store)
    (hs : RefIntact s) : RefIntact (putClient pass auth cid now req s).1 := by
  unfold putClient
  split
  · split
    · exact hs
    · intro g hg
      obtain ⟨c, hc, hcid⟩ := hs g hg
      refine ⟨_, List.mem_map_of_mem _ hc, ?_⟩
      dsimp only
      split <;> exact hcid
  · exact hs

theorem deleteClient_refIntact (pass : String) (auth : Option String)
    (cid : String) (s : Store)
    (hs : RefIntact s) : RefIntact (deleteClient pass auth cid s).1 := by
  unfold deleteClient
  split
  · intro g hg
    have hg2 := List.of_mem_filter hg
    simp only [decide_eq_true_eq] at hg2
    obtain ⟨c, hc, hcid⟩ := hs g (List.mem_of_mem_filter hg)
    refine ⟨c, List.mem_filter.mpr ⟨hc, ?_⟩, hcid⟩
    simp only [decide_eq_true_eq]
    rw [hcid]
    exact hg2
  · exact hs

theorem postGrant_refIntact (pass : String) (auth : Option String)
    (newId cid : String) (req : GrantReq) (s : Store)
    (hs : RefIntact s) : RefIntact (postGrant pass auth newId cid req s).1 := by
  unfold postGrant
  by_cases ha : requireAdmin pass auth = true
  · rw [if_pos ha]
    by_cases h1 : s.clients.any (fun c => c.id = cid) = true
    · rw [if_pos h1]
      by_cases h2 : s.grants.any (fun g => g.id = newId) = true
      · rw [if_pos h2]
        exact hs
      · rw [if_neg h2]
        intro g hg
        rcases List.mem_append.mp hg with hg | hg
        · exact hs g hg
        · rcases List.mem_singleton.mp hg with rfl
          obtain ⟨c, hc, hcid⟩ := List.any_eq_true.mp h1
          exact ⟨c, hc, by simpa [mkGrantRow] using hcid⟩
    · rw [if_neg h1]
      exact hs
  · rw [if_neg ha]
    exact hs

theorem putGrant_refIntact (pass : String) (auth : Option String)
    (gid : String) (req : GrantReq) (s : Store)
    (hs : RefIntact s) : RefIntact (putGrant pass auth gid req s).1 := by
  unfold putGrant
  split
  · intro g hg
    obtain ⟨g0, hg0, rfl⟩ := List.mem_map.mp hg
    obtain ⟨c, hc, hcid⟩ := hs g0 hg0
    refine ⟨c, hc, ?_⟩
    dsimp only
    split <;> exact hcid
  · exact hs

theorem deleteGrant_refIntact (pass : String) (auth : Option String)
    (gid : String) (s : Store)
    (hs : RefIntact s) : RefIntact (deleteGrant pass auth gid s).1 := by
  unfold deleteGrant
  split
  · intro g hg
    exact hs g (List.mem_of_mem_filter hg)
  · exact hs

theorem putBulkGrants_refIntact (pass : String) (auth : Option String)
    (cid : String) (entries : Option (List (String × Option GrantReq)))
    (s : Store)
    (hs : RefIntact s) :
    RefIntact (putBulkGrants pass auth cid entries s).1 := by
  have hs1 : RefIntact
      { s with grants := s.grants.filter (fun g => ¬ g.client_id = cid) } := by
    intro g hg
    exact hs g (List.mem_of_mem_filter hg)
  unfold putBulkGrants
  split
  · cases entries with
    | none => exact hs1
    | some l => exact runBulkInserts_refIntact cid l 0 _ hs1
  · exact hs

/-- C2: the referential cascade holds.  An authorized client delete removes
every grant row naming that client, after which neither the public read nor
the admin listing can reach any grant with that client id; and every
operation preserves the invariant that each grant's client_id names an
existing client (in particular no operation inserts a grant for a
nonexistent client, the enforced foreign key rejecting it). -/
theorem cascade_and_referential_integrity
    (pass : String) (auth : Option String) (s : Store)
    (cid gid newId : String) (now : Nat) (creq : ClientReq) (greq : GrantReq)
    (entries : Option (List (String × Option GrantReq)))
    (hs : RefIntact s) (hauth : auth = some pass) :
    (∀ g ∈ (deleteClient pass auth cid s).1.grants, ¬ g.client_id = cid)
    ∧ getClientPublic (deleteClient pass auth cid s).1 cid
        = ((deleteClient pass auth cid s).1, .notFound)
    ∧ (∀ l, (getClients pass auth (deleteClient pass auth cid s).1).2
          = .clientList l →
        ∀ pr ∈ l, ¬ pr.1.id = cid ∧ ∀ g ∈ pr.2, ¬ g.client_id = cid)
    ∧ RefIntact (getClients pass auth s).1
    ∧ RefIntact (getClientPublic s cid).1
    ∧ RefIntact (postClient pass auth newId now creq s).1
    ∧ RefIntact (putClient pass auth cid now creq s).1
    ∧ RefIntact (deleteClient pass auth cid s).1
    ∧ RefIntact (postGrant pass auth newId cid greq s).1
    ∧ RefIntact (putGrant pass auth gid greq s).1
    ∧ RefIntact (deleteGrant pass auth gid s).1
    ∧ RefIntact (putBulkGrants pass auth cid entries s).1 := by
  have hdel := deleteClient_ok pass auth cid s hauth
  have hgrants : ∀ g ∈ (deleteClient pass auth cid s).1.grants,
      ¬ g.client_id = cid := by
    intro g hg
    rw [hdel] at hg
    simpa using List.of_mem_filter hg
  have hclients : ∀ c ∈ (deleteClient pass auth cid s).1.clients,
      ¬ c.id = cid := by
    intro c hc
    rw [hdel] at hc
    simpa using List.of_mem_filter hc
  refine ⟨hgrants, ?_, ?_,
    by rw [getClients_fst]; exact hs,
    by rw [getClientPublic_fst]; exact hs,
    postClient_refIntact pass auth newId now creq s hs,
    putClient_refIntact pass auth cid now creq s hs,
    deleteClient_refIntact pass auth cid s hs,
    postGrant_refIntact pass auth newId cid greq s hs,
    putGrant_refIntact pass auth gid greq s hs,
    deleteGrant_refIntact pass auth gid s hs,
    putBulkGrants_refIntact pass auth cid entries s hs⟩
  · have hnone : (deleteClient pass auth cid s).1.clients.find?
        (fun c => c.id = cid) = none := by
      rw [List.find?_eq_none]
      intro c hc
      simpa using hclients c hc
    rw [getClientPublic.eq_def, hnone]
  · intro l hl pr hpr
    rw [getClients, if_pos (requireAdmin_true hauth)] at hl
    simp only [ApiResponse.clientList.injEq] at hl
    rw [← hl] at hpr
    obtain ⟨c, hcm, rfl⟩ := List.mem_map.mp hpr
    have hcmem : c ∈ (deleteClient pass auth cid s).1.clients :=
      mem_sortClientsDesc.mp hcm
    refine ⟨hclients c hcmem, ?_⟩
    intro g hg
    have hg2 : g ∈ grantsOf (deleteClient pass auth cid s).1 c.id :=
      (sortGrants_perm _).mem_iff.mp hg
    exact hgrants g (List.mem_of_mem_filter hg2)

/-- Witness for C2: after deleting client c1 its grants are gone and the
public read answers 404. -/
theorem cascade_and_referential_integrity_witness :
    getClientPublic
        (deleteClient defaultAdminPass (some defaultAdminPass) "c1" exStore).1
        "c1"
      = ((deleteClient defaultAdminPass (some defaultAdminPass) "c1" exStore).1,
          .notFound) :=
  (cascade_and_referential_integrity defaultAdminPass (some defaultAdminPass)
    exStore "c1" "g1" "n1" 7 exClientReq exReq0 none
    (by unfold RefIntact; decide) rfl).2.1

end GrantsApp
